import Mathlib

/-!
Verification of the iris model-serving and training repository.

Shallow embedding of `app/api.py`, `app/database.py` and
`train/main_loop_models.py`.  Python floats are modelled as rationals,
database state as an explicit record threaded through the handlers, and
exceptions as `Except` / explicit error constructors.
-/

namespace Iris

/-- Values that can appear in a JSON response dictionary. -/
inductive JVal where
  | i : Int → JVal
  | q : Rat → JVal
  | s : String → JVal
deriving DecidableEq, Repr

/-- JSON values, enough for the feature-list encoding used by the SQLite
backend (`json.dumps` / `json.loads` of a list of floats). -/
inductive Json where
  | num : Rat → Json
  | str : String → Json
  | arr : List Json → Json

/-- `json.dumps(features)`: a list of floats serialises to a JSON array of
numbers (database.py line 152). -/
def dumpsFloats (fs : List Rat) : Json :=
  Json.arr (fs.map Json.num)

/-- Read a JSON array's elements as plain numbers; fails on anything
that is not a number. -/
def jnums : List Json → Option (List Rat)
  | [] => some []
  | Json.num v :: rest => (jnums rest).map fun vs => v :: vs
  | _ => none

/-- `json.loads` of a features cell, read back as a plain list of numbers
(database.py line 205); anything that is not an array of numbers fails. -/
def loadsFloats : Json → Option (List Rat)
  | Json.arr xs => jnums xs
  | _ => none

/-- The features column content: TEXT holding JSON in the SQLite backend,
a native FLOAT8[] array in the Postgres backend (database.py lines 80, 95). -/
inductive FeatCell where
  | text : Json → FeatCell
  | arr : List Rat → FeatCell

/-- The configured database driver (database.py lines 17-22). -/
inductive Driver where
  | sqlite : Driver
  | postgres : Driver
deriving DecidableEq, Repr

/-- One row of the `predictions` table. -/
structure Row where
  request_id : String
  model_name : String
  model_version : String
  features : FeatCell
  prediction : Int
  probability : Rat
  latency_ms : Rat
  timestamp : Rat

/-- A decoded prediction record as returned to callers of
`get_predictions`: the features cell is already decoded to a plain list. -/
structure Rec where
  request_id : String
  model_name : String
  model_version : String
  features : List Rat
  prediction : Int
  probability : Rat
  latency_ms : Rat
  timestamp : Rat
deriving DecidableEq, Repr

/-- The backing store: reachability of the connection (`get_db_connection`
returning a connection or `None`), whether writes raise a driver error,
and the table contents. -/
structure Store where
  reachable : Bool
  writeFails : Bool
  rows : List Row

/-- Arguments of one `log_prediction` call (database.py lines 123-131). -/
structure LogArgs where
  request_id : String
  model_name : String
  model_version : String
  features : List Rat
  prediction : Int
  probability : Rat
  latency_ms : Rat
  timestamp : Rat

/-- Encode the features argument for insertion: JSON text under SQLite,
native array under Postgres (database.py lines 151-165). -/
def encodeFeatures : Driver → List Rat → FeatCell
  | Driver.sqlite, fs => FeatCell.text (dumpsFloats fs)
  | Driver.postgres, fs => FeatCell.arr fs

/-- `log_prediction` (database.py lines 123-178): returns `False` when the
connection cannot be opened, `False` (after rollback) when the insert
raises — including a UNIQUE violation on `request_id` — and `True` with
the row appended otherwise.  It never raises. -/
def log_prediction (d : Driver) (a : LogArgs) (st : Store) : Bool × Store :=
  if st.reachable = false then
    (false, st)
  else if st.writeFails = true then
    (false, st)
  else if st.rows.any (fun r => r.request_id = a.request_id) then
    (false, st)
  else
    (true,
     { st with rows := st.rows ++
        [{ request_id := a.request_id
           model_name := a.model_name
           model_version := a.model_version
           features := encodeFeatures d a.features
           prediction := a.prediction
           probability := a.probability
           latency_ms := a.latency_ms
           timestamp := a.timestamp }] })

/-- Insert a row into a list kept in timestamp-descending order
(the `ORDER BY timestamp DESC` of database.py lines 190, 194). -/
def insertDesc (r : Row) : List Row → List Row
  | [] => [r]
  | x :: xs =>
      if x.timestamp ≤ r.timestamp then r :: x :: xs
      else x :: insertDesc r xs

/-- Sort the table rows by timestamp descending. -/
def sortDesc (rs : List Row) : List Row :=
  rs.foldr insertDesc []

/-- Decode one fetched row into the dictionary handed back to the caller:
under SQLite the features TEXT is `json.loads`-decoded, under Postgres the
native array is used as-is (database.py lines 200-206).  A cell that does
not match the driver's encoding makes the decode raise (not a driver
error, hence uncaught), modelled as `none`. -/
def decodeRow (d : Driver) (r : Row) : Option Rec :=
  match d, r.features with
  | Driver.sqlite, FeatCell.text j =>
      (loadsFloats j).map fun fs =>
        { request_id := r.request_id
          model_name := r.model_name
          model_version := r.model_version
          features := fs
          prediction := r.prediction
          probability := r.probability
          latency_ms := r.latency_ms
          timestamp := r.timestamp }
  | Driver.postgres, FeatCell.arr fs =>
      some
        { request_id := r.request_id
          model_name := r.model_name
          model_version := r.model_version
          features := fs
          prediction := r.prediction
          probability := r.probability
          latency_ms := r.latency_ms
          timestamp := r.timestamp }
  | _, _ => none

/-- The `for row in results` loop of `get_predictions` (database.py lines
201-206): decode each fetched row in order, propagating a decode
failure. -/
def decodeRows (d : Driver) : List Row → Option (List Rec)
  | [] => some []
  | r :: rs =>
      match decodeRow d r, decodeRows d rs with
      | some x, some xs => some (x :: xs)
      | _, _ => none

/-- `get_predictions` (database.py lines 181-216): returns `[]` when the
connection cannot be opened; otherwise fetches the rows ordered by
timestamp descending, limited to `limit`, and decodes each row's features.
`Except.error` models an exception escaping the function (only possible on
a features cell that does not match the driver's encoding). -/
def get_predictions (d : Driver) (st : Store) (limit : Nat) :
    Except String (List Rec) :=
  if st.reachable = false then
    Except.ok []
  else
    match decodeRows d ((sortDesc st.rows).take limit) with
    | some recs => Except.ok recs
    | none => Except.error "features cell does not match driver encoding"

/-! ## The serving API (`app/api.py`) -/

/-- The loaded scikit-learn classifier, abstracted: `predict` maps each
input row to a class index and `predict_proba` maps each row to a vector
of class probabilities (both library calls are vectorised over rows). -/
structure SkModel where
  predictRow : List Rat → Int
  probaRow : List Rat → List Rat

/-- Default model name (api.py line 32). -/
def MODEL_NAME : String := "iris-logistic-regression"

/-- Model version when the startup load succeeded (api.py line 51). -/
def MODEL_VERSION : String := "1.0.0"

/-- Outcome of a request: a 200 body (an ordered dictionary of fields) or
an HTTP error with status code and detail. -/
inductive ApiOutcome where
  | ok : List (String × JVal) → ApiOutcome
  | httpError : Nat → String → ApiOutcome
deriving DecidableEq, Repr

/-- The `predict` handler body (api.py lines 255-311).  `m` is the global
model (`None` when the startup load failed), `rid` the generated request
id, `lat` the measured latency, `ts` the `datetime.now()` value.
The handler checks the model, then the feature length, then runs the try
block: inference, metrics, a best-effort `log_prediction` whose boolean
result is discarded, and the response dictionary including `request_id`.
`np.max` on an empty probability vector raises, caught as a 500. -/
def predict (m : Option SkModel) (d : Driver) (st : Store) (rid : String)
    (lat ts : Rat) (fs : List Rat) : ApiOutcome × Store :=
  match m with
  | none => (ApiOutcome.httpError 503 "Model not loaded", st)
  | some model =>
      if fs.length ≠ 4 then
        (ApiOutcome.httpError 422 "Features must have 4 dimensions", st)
      else
        let prediction := model.predictRow fs
        let probabilities := model.probaRow fs
        match probabilities.max? with
        | none =>
            (ApiOutcome.httpError 500
              "zero-size array to reduction operation maximum", st)
        | some probability =>
            let logged := log_prediction d
              { request_id := rid
                model_name := MODEL_NAME
                model_version := MODEL_VERSION
                features := fs
                prediction := prediction
                probability := probability
                latency_ms := lat
                timestamp := ts } st
            (ApiOutcome.ok
              [("prediction", JVal.i prediction),
               ("probability", JVal.q probability),
               ("latency_ms", JVal.q lat),
               ("model", JVal.s MODEL_NAME),
               ("version", JVal.s MODEL_VERSION),
               ("request_id", JVal.s rid)],
             logged.2)

/-- The full `/predict` endpoint: FastAPI first validates the request body
against `PredictRequest`, whose `features` field declares
`min_items=4, max_items=4` (api.py lines 70-76); a wrong-length array is
rejected with a 422 validation error before the handler body runs. -/
def predict_endpoint (m : Option SkModel) (d : Driver) (st : Store)
    (rid : String) (lat ts : Rat) (fs : List Rat) : ApiOutcome × Store :=
  if fs.length < 4 ∨ 4 < fs.length then
    (ApiOutcome.httpError 422 "value_error.list.min_items / max_items", st)
  else
    predict m d st rid lat ts fs

/-- The fields declared by the `PredictResponse` model
(api.py lines 105-129). -/
def PredictResponse_fields : List String :=
  ["prediction", "probability", "latency_ms", "model", "version"]

/-- FastAPI serialises a handler's return value through the route's
`response_model`: the delivered body holds exactly the model's declared
fields, extra dictionary keys are dropped. -/
def applyResponseModel (fields : List String)
    (body : List (String × JVal)) : List (String × JVal) :=
  fields.filterMap fun k => (List.lookup k body).map fun v => (k, v)

/-- The body a client of `/predict` actually receives on a 200. -/
def predict_delivered (m : Option SkModel) (d : Driver) (st : Store)
    (rid : String) (lat ts : Rat) (fs : List Rat) : ApiOutcome :=
  match (predict_endpoint m d st rid lat ts fs).1 with
  | ApiOutcome.ok body => ApiOutcome.ok (applyResponseModel PredictResponse_fields body)
  | e => e

/-- A Python exception inside the batch try block: either the
`HTTPException(422)` raised by the shape check, or a library error. -/
inductive PyExn where
  | http : Nat → String → PyExn
  | err : String → PyExn
deriving DecidableEq, Repr

/-- Message of `str(e)` for a caught exception (detail text only; the
exact rendering of `HTTPException` is irrelevant to the status code). -/
def pyStr : PyExn → String
  | PyExn.http _ detail => detail
  | PyExn.err m => m

/-- `np.array(features).shape[1]` (api.py lines 344-345): an empty list
gives a 1-dimensional array, so `shape[1]` raises IndexError; ragged rows
make `np.array` itself raise; otherwise the common row length. -/
def npShape1 (rows : List (List Rat)) : Except PyExn Nat :=
  match rows with
  | [] => Except.error (PyExn.err "tuple index out of range")
  | r :: rest =>
      if rest.all fun x => x.length = r.length then Except.ok r.length
      else Except.error
        (PyExn.err "setting an array element with a sequence")

/-- The try block of `predict_batch` (api.py lines 340-366): shape check
raising `HTTPException(422)` on a row length other than 4, then vectorised
inference and the per-row probability maxima. -/
def predict_batch_try (model : SkModel) (rows : List (List Rat)) :
    Except PyExn (List Int × List Rat) :=
  match npShape1 rows with
  | Except.error e => Except.error e
  | Except.ok dim =>
      if dim ≠ 4 then
        Except.error (PyExn.http 422 "Features must have 4 dimensions")
      else
        match (rows.map model.probaRow).mapM List.max? with
        | none =>
            Except.error
              (PyExn.err "zero-size array to reduction operation maximum")
        | some maxProbs =>
            Except.ok (rows.map model.predictRow, maxProbs)

/-- Outcome of the `/predict-batch` endpoint: parallel prediction and
probability arrays plus the aggregate latency, or an HTTP error. -/
inductive BatchOutcome where
  | ok : List Int → List Rat → Rat → BatchOutcome
  | httpError : Nat → String → BatchOutcome
deriving DecidableEq, Repr

/-- The `predict_batch` handler (api.py lines 326-368).  The model check
precedes the try block; everything raised inside the try block — the
`HTTPException(422)` of the shape check included — is caught by
`except Exception` and re-raised as `HTTPException(500, str(e))`. -/
def predict_batch (m : Option SkModel) (lat : Rat)
    (rows : List (List Rat)) : BatchOutcome :=
  match m with
  | none => BatchOutcome.httpError 503 "Model not loaded"
  | some model =>
      match predict_batch_try model rows with
      | Except.ok (ps, qs) => BatchOutcome.ok ps qs lat
      | Except.error e => BatchOutcome.httpError 500 (pyStr e)

/-- `predict_batch` with the prediction log store threaded through: the
handler body (api.py lines 326-368) contains no call to the store, so the
store passes through untouched. -/
def predict_batch_full (m : Option SkModel) (st : Store)
    (lat : Rat) (rows : List (List Rat)) : BatchOutcome × Store :=
  (predict_batch m lat rows, st)

/-! ## The training pipeline (`train/main_loop_models.py`) -/

/-- Evaluation metrics of one trained model
(`evaluate_model`, used at main_loop_models.py line 112); `prec` stands
for the source's "precision" key and `recl` for its "recall" key, both of
which Lean reserves. -/
structure TrainMetrics where
  accuracy : Rat
  prec : Rat
  recl : Rat
  f1 : Rat
deriving DecidableEq, Repr

/-- The result dictionary returned by `train_model_pipeline` on success
(main_loop_models.py lines 133-140). -/
structure TrainResult where
  model : String
  display_name : String
  registry_name : String
  metrics : TrainMetrics
deriving DecidableEq, Repr

/-- The names of the fixed ordered list of model kinds
(main_loop_models.py lines 27-68). -/
def MODELS : List String :=
  ["logistic_regression", "random_forest", "svm"]

/-- MLflow run status set for a model kind's run. -/
inductive RunStatus where
  | finished : RunStatus
  | failed : RunStatus
deriving DecidableEq, Repr

/-- `train_model_pipeline` (main_loop_models.py lines 71-145), with the
external training plus evaluation abstracted as `t` (it either produces
the result dictionary or raises).  On an exception the run is marked
FAILED and the exception is re-raised (lines 142-145). -/
def train_model_pipeline (t : String → Except String TrainResult)
    (name : String) : Except String TrainResult × RunStatus :=
  match t name with
  | Except.ok r => (Except.ok r, RunStatus.finished)
  | Except.error e => (Except.error e, RunStatus.failed)

/-- `run_all_models_loop` (main_loop_models.py lines 148-171): iterates
over the model kinds with no exception handling around
`train_model_pipeline`, so a re-raised failure propagates and ends the
loop.  Returns the runs attempted (with their recorded status) and either
the result list or the escaping exception. -/
def run_all_models_loop (t : String → Except String TrainResult) :
    List String → List (String × RunStatus) × Except String (List TrainResult)
  | [] => ([], Except.ok [])
  | k :: rest =>
      match train_model_pipeline t k with
      | (Except.ok r, s) =>
          let next := run_all_models_loop t rest
          ((k, s) :: next.1, Except.map (fun rs => r :: rs) next.2)
      | (Except.error e, s) => ([(k, s)], Except.error e)

/-- Python `max(iterable, key=...)`: folds over the list keeping the
current maximum, replacing it only on a strictly greater key, so the first
of several maxima wins (main_loop_models.py line 270). -/
def pymax (key : TrainResult → Rat) :
    List TrainResult → Option TrainResult
  | [] => none
  | x :: xs => some (xs.foldl (fun acc y => if key acc < key y then y else acc) x)

/-- `main`'s best-model selection (main_loop_models.py line 270):
`max(all_results, key=lambda x: x["metrics"]["accuracy"])`. -/
def main_best_result (rs : List TrainResult) : Option TrainResult :=
  pymax (fun r => r.metrics.accuracy) rs

/-- `main` after the data fetch (main_loop_models.py lines 251-276): runs
the loop — an escaping exception propagates out of `main` — then selects
the best result over the returned list. -/
def main_run (t : String → Except String TrainResult) :
    Except String (List TrainResult × Option TrainResult) :=
  match (run_all_models_loop t MODELS).2 with
  | Except.error e => Except.error e
  | Except.ok rs => Except.ok (rs, main_best_result rs)

/-! ## Fixtures for witnesses and counterexamples -/

/-- A stand-in classifier: class 0 with probability vector `[1]`. -/
def constModel : SkModel where
  predictRow := fun _ => 0
  probaRow := fun _ => [1]

/-- A reachable, healthy, empty store. -/
def emptyStore : Store :=
  { reachable := true, writeFails := false, rows := [] }

/-- A store whose connection cannot be opened. -/
def downStore : Store :=
  { reachable := false, writeFails := false, rows := [] }

/-- A table row with the Postgres native-array features cell. -/
def demoRow (i : String) (ts : Rat) : Row :=
  { request_id := i, model_name := "m", model_version := "v",
    features := FeatCell.arr [1, 2, 3, 4], prediction := 0,
    probability := 1, latency_ms := 1, timestamp := ts }

/-- A healthy store holding two rows with timestamps 1 and 2. -/
def demoStore : Store :=
  { reachable := true, writeFails := false,
    rows := [demoRow "a" 1, demoRow "b" 2] }

/-- Metrics with all four scores equal to `a`. -/
def demoMetrics (a : Rat) : TrainMetrics :=
  { accuracy := a, prec := a, recl := a, f1 := a }

/-- A training result named `n` with accuracy `a`. -/
def demoResult (n : String) (a : Rat) : TrainResult :=
  { model := n, display_name := n, registry_name := n, metrics := demoMetrics a }

/-- A training behaviour where the second model kind (random forest)
raises during training and the other kinds succeed. -/
def failingSecond (n : String) : Except String TrainResult :=
  if n = "random_forest" then Except.error "boom"
  else Except.ok (demoResult n (9 / 10))

/-! ## Claim theorems -/

/-- C1: a request to `/predict` whose features array has length other
than 4 is answered with a 422 error whatever the model load state: the
request-model validation (`min_items=4, max_items=4`) rejects it before
the model-loaded check can run, so the shape check decides the outcome
even when the model is also unloaded. -/
theorem C1_shape_check_beats_load_state (m : Option SkModel) (d : Driver)
    (st : Store) (rid : String) (lat ts : Rat) (fs : List Rat)
    (h : fs.length ≠ 4) :
    (predict_endpoint m d st rid lat ts fs).1 =
      ApiOutcome.httpError 422 "value_error.list.min_items / max_items" := by
  have hlt : fs.length < 4 ∨ 4 < fs.length := by omega
  simp [predict_endpoint, hlt]

/-- Witness for C1: a 3-feature request with the model unloaded. -/
theorem C1_witness :
    ([(1 : Rat), 2, 3].length ≠ 4) ∧
    (predict_endpoint none Driver.sqlite emptyStore "r" 1 0 [1, 2, 3]).1 =
      ApiOutcome.httpError 422 "value_error.list.min_items / max_items" :=
  ⟨by decide,
   C1_shape_check_beats_load_state none Driver.sqlite emptyStore "r" 1 0
     [1, 2, 3] (by decide)⟩

/-- C2 (failing input): with the model loaded, a batch whose single row
has length 3 is answered with a 500, not a 422: the shape check's
`HTTPException(422)` is raised inside the `try` block, caught by
`except Exception`, and re-raised as `HTTPException(500, str(e))`. -/
theorem C2_bad_row_yields_500 (model : SkModel) (lat : Rat) :
    predict_batch (some model) lat [[1, 2, 3]] =
      BatchOutcome.httpError 500 "Features must have 4 dimensions" ∧
    ∀ ps qs l, predict_batch (some model) lat [[1, 2, 3]] ≠
      BatchOutcome.ok ps qs l := by
  refine ⟨rfl, ?_⟩
  intro ps qs l h
  simp [predict_batch, predict_batch_try, npShape1, pyStr] at h

/-- C3 (counterexample): with a training behaviour whose second model kind
fails, the loop stops after the failed run — the third kind is never
attempted, the loop propagates the exception instead of returning a
result list, and `main` performs no best-accuracy selection. -/
theorem C3_counterexample :
    run_all_models_loop failingSecond MODELS =
      ([("logistic_regression", RunStatus.finished),
        ("random_forest", RunStatus.failed)],
       Except.error "boom") ∧
    main_run failingSecond = Except.error "boom" := by
  constructor <;> rfl

/-- C3 (amended): a per-model training/evaluation failure marks that
model's run FAILED and re-raises; the loop has no handler, so it aborts:
the kinds after the failing one are never attempted, the loop yields the
exception instead of a result list, and `main` propagates it without any
best-by-accuracy comparison. -/
theorem C3_failure_aborts_loop (t : String → Except String TrainResult)
    (pre post : List String) (k : String) (e : String)
    (hpre : ∀ j ∈ pre, ∃ r, t j = Except.ok r)
    (hk : t k = Except.error e) :
    run_all_models_loop t (pre ++ k :: post) =
      ((pre.map fun j => (j, RunStatus.finished)) ++ [(k, RunStatus.failed)],
       Except.error e) ∧
    (MODELS = pre ++ k :: post → main_run t = Except.error e) := by
  have hloop :
      run_all_models_loop t (pre ++ k :: post) =
        ((pre.map fun j => (j, RunStatus.finished)) ++ [(k, RunStatus.failed)],
         Except.error e) := by
    induction pre with
    | nil => simp [run_all_models_loop, train_model_pipeline, hk]
    | cons a as ih =>
        obtain ⟨r, hr⟩ := hpre a (by simp)
        have ih' := ih (fun j hj => hpre j (by simp [hj]))
        simp [run_all_models_loop, train_model_pipeline, hr, ih', Except.map]
  refine ⟨hloop, fun hM => ?_⟩
  rw [main_run, hM, hloop]

/-- Witness for C3 (amended): instantiated with the behaviour whose
random-forest training fails. -/
theorem C3_failure_aborts_loop_witness :
    run_all_models_loop failingSecond
        (["logistic_regression"] ++ "random_forest" :: ["svm"]) =
      ((["logistic_regression"].map fun j => (j, RunStatus.finished)) ++
        [("random_forest", RunStatus.failed)],
       Except.error "boom") ∧
    (MODELS = ["logistic_regression"] ++ "random_forest" :: ["svm"] →
      main_run failingSecond = Except.error "boom") :=
  C3_failure_aborts_loop failingSecond ["logistic_regression"] ["svm"]
    "random_forest" "boom"
    (by intro j hj; simp at hj; subst hj; exact ⟨_, rfl⟩)
    (by rfl)

/-- C10: a batch request with an empty features list while the model is
loaded is not answered 200: `np.array([])` is one-dimensional, `shape[1]`
raises IndexError inside the `try` block, and the handler returns a
generic 500. -/
theorem C10_empty_batch_500 (model : SkModel) (lat : Rat) :
    predict_batch (some model) lat [] =
      BatchOutcome.httpError 500 "tuple index out of range" ∧
    ∀ ps qs l, predict_batch (some model) lat [] ≠
      BatchOutcome.ok ps qs l := by
  refine ⟨rfl, ?_⟩
  intro ps qs l h
  simp [predict_batch, predict_batch_try, npShape1, pyStr] at h

/-- C4: with the model loaded and a valid 4-feature vector, a log-store
failure is reported only as a `False` return of `log_prediction`
(connection failure and write error alike, with the table unchanged), and
the response of `predict` is the same for any two store states — the
prediction still succeeds with a 200 body. -/
theorem C4_logging_failure_is_soft (model : SkModel) (d : Driver)
    (st st' : Store) (rid : String) (lat ts : Rat) (fs : List Rat)
    (h4 : fs.length = 4) (hp : model.probaRow fs ≠ []) :
    (∀ a s, s.reachable = false → log_prediction d a s = (false, s)) ∧
    (∀ a s, s.writeFails = true → log_prediction d a s = (false, s)) ∧
    (predict (some model) d st rid lat ts fs).1 =
      (predict (some model) d st' rid lat ts fs).1 ∧
    (∃ body, (predict (some model) d st rid lat ts fs).1 =
      ApiOutcome.ok body) := by
  obtain ⟨p, hp'⟩ : ∃ p, (model.probaRow fs).max? = some p := by
    cases hm : (model.probaRow fs).max? with
    | none => exact absurd (List.max?_eq_none_iff.mp hm) hp
    | some p => exact ⟨p, rfl⟩
  refine ⟨?_, ?_, ?_, ?_⟩
  · intro a s hs; simp [log_prediction, hs]
  · intro a s hw
    by_cases hs : s.reachable = false
    · simp [log_prediction, hs]
    · simp at hs; simp [log_prediction, hs, hw]
  · simp [predict, h4, hp']
  · exact ⟨[("prediction", JVal.i (model.predictRow fs)),
            ("probability", JVal.q p), ("latency_ms", JVal.q lat),
            ("model", JVal.s MODEL_NAME), ("version", JVal.s MODEL_VERSION),
            ("request_id", JVal.s rid)],
           by simp [predict, h4, hp']⟩

/-- Witness for C4: a concrete prediction against an unreachable store
and against a healthy one. -/
theorem C4_witness :
    (([51 / 10, 35 / 10, 14 / 10, 2 / 10] : List Rat).length = 4) ∧
    constModel.probaRow [51 / 10, 35 / 10, 14 / 10, 2 / 10] ≠ [] ∧
    ((∀ a s, s.reachable = false →
        log_prediction Driver.sqlite a s = (false, s)) ∧
     (∀ a s, s.writeFails = true →
        log_prediction Driver.sqlite a s = (false, s)) ∧
     (predict (some constModel) Driver.sqlite downStore "r" 1 0
        [51 / 10, 35 / 10, 14 / 10, 2 / 10]).1 =
       (predict (some constModel) Driver.sqlite emptyStore "r" 1 0
        [51 / 10, 35 / 10, 14 / 10, 2 / 10]).1 ∧
     (∃ body, (predict (some constModel) Driver.sqlite downStore "r" 1 0
        [51 / 10, 35 / 10, 14 / 10, 2 / 10]).1 = ApiOutcome.ok body)) :=
  ⟨by decide, by decide,
   C4_logging_failure_is_soft constModel Driver.sqlite downStore emptyStore
     "r" 1 0 [51 / 10, 35 / 10, 14 / 10, 2 / 10] (by decide) (by decide)⟩

/-- Auxiliary: Python `max(..., key=...)` (a left fold replacing the
running maximum only on a strictly greater key) returns the first
maximum: the input splits around the returned element, with strictly
smaller keys before it and no greater key after it. -/
theorem pymax_splits (key : TrainResult → Rat) (x : TrainResult)
    (xs : List TrainResult) :
    ∃ r l₁ l₂, pymax key (x :: xs) = some r ∧ x :: xs = l₁ ++ r :: l₂ ∧
      (∀ z ∈ l₁, key z < key r) ∧ (∀ z ∈ l₂, key z ≤ key r) := by
  induction xs generalizing x with
  | nil => exact ⟨x, [], [], rfl, rfl, by simp, by simp⟩
  | cons y ys ih =>
      by_cases hxy : key x < key y
      · obtain ⟨r, l₁, l₂, hr, hsplit, h₁, h₂⟩ := ih y
        have hpm : pymax key (x :: y :: ys) = some r := by
          simpa [pymax, hxy] using hr
        have hyr : key y ≤ key r := by
          cases l₁ with
          | nil =>
              have h := hsplit
              simp at h
              exact le_of_eq (congrArg key h.1)
          | cons a l₁' =>
              have h := hsplit
              simp at h
              have hlt := h₁ a (by simp)
              rw [← h.1] at hlt
              exact le_of_lt hlt
        refine ⟨r, x :: l₁, l₂, hpm, by simp [hsplit], ?_, h₂⟩
        intro z hz
        rcases List.mem_cons.mp hz with rfl | hz
        · exact lt_of_lt_of_le hxy hyr
        · exact h₁ z hz
      · push_neg at hxy
        obtain ⟨r, l₁, l₂, hr, hsplit, h₁, h₂⟩ := ih x
        have hpm : pymax key (x :: y :: ys) = some r := by
          have hstep : (if key x < key y then y else x) = x :=
            if_neg (not_lt.mpr hxy)
          simpa [pymax, hstep] using hr
        cases l₁ with
        | nil =>
            have h := hsplit
            simp at h
            refine ⟨r, [], y :: l₂, hpm, ?_, by simp, ?_⟩
            · simp [← h.1, ← h.2]
            · intro z hz
              rcases List.mem_cons.mp hz with rfl | hz
              · exact hxy.trans_eq (congrArg key h.1)
              · exact h₂ z hz
        | cons a l₁' =>
            have h := hsplit
            simp at h
            have hxr : key x < key r := by
              have hlt := h₁ a (by simp)
              rw [← h.1] at hlt
              exact hlt
            refine ⟨r, x :: y :: l₁', l₂, hpm, ?_, ?_, h₂⟩
            · simp [h.2]
            · intro z hz
              rcases List.mem_cons.mp hz with rfl | hz
              · exact hxr
              · rcases List.mem_cons.mp hz with rfl | hz
                · exact lt_of_le_of_lt hxy hxr
                · exact h₁ z (by simp [hz])

/-- C5: over a non-empty result list, `main`'s selection
`max(all_results, key=accuracy)` picks the element of maximum accuracy,
and among equal maxima the earliest in iteration order (everything before
the winner has strictly smaller accuracy); in particular with accuracies
[0.90, 0.95, 0.93] the second result wins. -/
theorem C5_best_accuracy_first_max (l : List TrainResult) (h : l ≠ []) :
    (∃ r l₁ l₂, main_best_result l = some r ∧ l = l₁ ++ r :: l₂ ∧
      (∀ z ∈ l₁, z.metrics.accuracy < r.metrics.accuracy) ∧
      (∀ z ∈ l₂, z.metrics.accuracy ≤ r.metrics.accuracy)) ∧
    main_best_result
        [demoResult "m1" (90 / 100), demoResult "m2" (95 / 100),
         demoResult "m3" (93 / 100)] =
      some (demoResult "m2" (95 / 100)) := by
  constructor
  · cases l with
    | nil => exact absurd rfl h
    | cons x xs => exact pymax_splits (fun r => r.metrics.accuracy) x xs
  · simp only [main_best_result, pymax, List.foldl, demoResult, demoMetrics]
    norm_num

/-- Witness for C5: the three-element result list with accuracies
[0.90, 0.95, 0.93]. -/
theorem C5_witness :
    ([demoResult "m1" (90 / 100), demoResult "m2" (95 / 100),
      demoResult "m3" (93 / 100)] ≠ ([] : List TrainResult)) ∧
    ((∃ r l₁ l₂,
        main_best_result
            [demoResult "m1" (90 / 100), demoResult "m2" (95 / 100),
             demoResult "m3" (93 / 100)] = some r ∧
        [demoResult "m1" (90 / 100), demoResult "m2" (95 / 100),
         demoResult "m3" (93 / 100)] = l₁ ++ r :: l₂ ∧
        (∀ z ∈ l₁, z.metrics.accuracy < r.metrics.accuracy) ∧
        (∀ z ∈ l₂, z.metrics.accuracy ≤ r.metrics.accuracy)) ∧
     main_best_result
        [demoResult "m1" (90 / 100), demoResult "m2" (95 / 100),
         demoResult "m3" (93 / 100)] =
      some (demoResult "m2" (95 / 100))) :=
  ⟨by simp, C5_best_accuracy_first_max _ (by simp)⟩

/-- C6 (counterexample): a concrete successful `/predict` call whose
delivered 200 body — the handler's dictionary serialised through
`response_model=PredictResponse` — carries no `request_id` field. -/
theorem C6_counterexample :
    predict_delivered (some constModel) Driver.sqlite emptyStore "rid-1" 1 0
        [51 / 10, 35 / 10, 14 / 10, 2 / 10] =
      ApiOutcome.ok
        [("prediction", JVal.i 0), ("probability", JVal.q 1),
         ("latency_ms", JVal.q 1), ("model", JVal.s MODEL_NAME),
         ("version", JVal.s MODEL_VERSION)] ∧
    ∀ body,
      predict_delivered (some constModel) Driver.sqlite emptyStore "rid-1" 1 0
          [51 / 10, 35 / 10, 14 / 10, 2 / 10] = ApiOutcome.ok body →
      List.lookup "request_id" body = none := by
  have he : predict_delivered (some constModel) Driver.sqlite emptyStore
      "rid-1" 1 0 [51 / 10, 35 / 10, 14 / 10, 2 / 10] =
      ApiOutcome.ok
        [("prediction", JVal.i 0), ("probability", JVal.q 1),
         ("latency_ms", JVal.q 1), ("model", JVal.s MODEL_NAME),
         ("version", JVal.s MODEL_VERSION)] := rfl
  refine ⟨he, fun body h => ?_⟩
  rw [he] at h
  cases h
  rfl

/-- C6 (amended): on a successful single prediction the handler's return
dictionary does contain `request_id`, but the route's declared
`response_model=PredictResponse` strips it during serialisation: the
body delivered to the client holds exactly prediction, probability,
latency_ms, model and version — no `request_id`. -/
theorem C6_response_model_drops_request_id (model : SkModel) (d : Driver)
    (st : Store) (rid : String) (lat ts : Rat) (fs : List Rat)
    (h4 : fs.length = 4) (hp : model.probaRow fs ≠ []) :
    ∃ raw body,
      (predict (some model) d st rid lat ts fs).1 = ApiOutcome.ok raw ∧
      List.lookup "request_id" raw = some (JVal.s rid) ∧
      predict_delivered (some model) d st rid lat ts fs =
        ApiOutcome.ok body ∧
      body.map Prod.fst = PredictResponse_fields ∧
      List.lookup "request_id" body = none := by
  obtain ⟨p, hp'⟩ : ∃ p, (model.probaRow fs).max? = some p := by
    cases hm : (model.probaRow fs).max? with
    | none => exact absurd (List.max?_eq_none_iff.mp hm) hp
    | some p => exact ⟨p, rfl⟩
  have hep : predict_endpoint (some model) d st rid lat ts fs =
      predict (some model) d st rid lat ts fs := by
    simp [predict_endpoint, h4]
  have hpred : (predict (some model) d st rid lat ts fs).1 =
      ApiOutcome.ok
        [("prediction", JVal.i (model.predictRow fs)),
         ("probability", JVal.q p), ("latency_ms", JVal.q lat),
         ("model", JVal.s MODEL_NAME), ("version", JVal.s MODEL_VERSION),
         ("request_id", JVal.s rid)] := by
    simp [predict, h4, hp']
  refine ⟨[("prediction", JVal.i (model.predictRow fs)),
           ("probability", JVal.q p), ("latency_ms", JVal.q lat),
           ("model", JVal.s MODEL_NAME), ("version", JVal.s MODEL_VERSION),
           ("request_id", JVal.s rid)],
          [("prediction", JVal.i (model.predictRow fs)),
           ("probability", JVal.q p), ("latency_ms", JVal.q lat),
           ("model", JVal.s MODEL_NAME), ("version", JVal.s MODEL_VERSION)],
          hpred, rfl, ?_, rfl, rfl⟩
  unfold predict_delivered
  rw [hep, hpred]
  rfl

/-- Witness for C6 (amended): a concrete 4-feature prediction. -/
theorem C6_amended_witness :
    (([51 / 10, 35 / 10, 14 / 10, 2 / 10] : List Rat).length = 4) ∧
    constModel.probaRow [51 / 10, 35 / 10, 14 / 10, 2 / 10] ≠ [] ∧
    (∃ raw body,
      (predict (some constModel) Driver.sqlite emptyStore "rid-1" 1 0
          [51 / 10, 35 / 10, 14 / 10, 2 / 10]).1 = ApiOutcome.ok raw ∧
      List.lookup "request_id" raw = some (JVal.s "rid-1") ∧
      predict_delivered (some constModel) Driver.sqlite emptyStore "rid-1" 1 0
          [51 / 10, 35 / 10, 14 / 10, 2 / 10] = ApiOutcome.ok body ∧
      body.map Prod.fst = PredictResponse_fields ∧
      List.lookup "request_id" body = none) :=
  ⟨by decide, by decide,
   C6_response_model_drops_request_id constModel Driver.sqlite emptyStore
     "rid-1" 1 0 [51 / 10, 35 / 10, 14 / 10, 2 / 10] (by decide) (by decide)⟩

/-- C7 (counterexample): a successful two-row batch call creates no
PredictionRecord at all — the batch handler performs no store write, so
an initially empty store still has no rows afterwards, although the claim
demands one record per input row. -/
theorem C7_counterexample :
    (∃ ps qs l, (predict_batch_full (some constModel) emptyStore 1
        [[1, 2, 3, 4], [5, 6, 7, 8]]).1 = BatchOutcome.ok ps qs l) ∧
    (predict_batch_full (some constModel) emptyStore 1
        [[1, 2, 3, 4], [5, 6, 7, 8]]).2.rows = [] :=
  ⟨⟨[0, 0], [1, 1], 1, rfl⟩, rfl⟩

/-- C7 (amended): every successful SINGLE prediction appends exactly one
PredictionRecord carrying the request's id, features, predicted class,
probability, latency and timestamp (when the store is reachable, writes
succeed and the request id is fresh; a failed write is skipped softly);
the batch handler performs no store write at all; and records are never
mutated — `log_prediction` only ever appends to the existing rows. -/
theorem C7_single_logs_batch_does_not (model : SkModel) (d : Driver)
    (st : Store) (rid : String) (lat ts : Rat) (fs : List Rat)
    (h4 : fs.length = 4) (hp : model.probaRow fs ≠ [])
    (hre : st.reachable = true) (hwf : st.writeFails = false)
    (hfresh : st.rows.any (fun r => r.request_id = rid) = false) :
    (∃ p, (model.probaRow fs).max? = some p ∧
      (predict (some model) d st rid lat ts fs).2.rows =
        st.rows ++
          [{ request_id := rid, model_name := MODEL_NAME,
             model_version := MODEL_VERSION,
             features := encodeFeatures d fs,
             prediction := model.predictRow fs, probability := p,
             latency_ms := lat, timestamp := ts }]) ∧
    (∀ m s l rows, (predict_batch_full m s l rows).2 = s) ∧
    (∀ a s, ∃ tail, (log_prediction d a s).2.rows = s.rows ++ tail) := by
  obtain ⟨p, hp'⟩ : ∃ p, (model.probaRow fs).max? = some p := by
    cases hm : (model.probaRow fs).max? with
    | none => exact absurd (List.max?_eq_none_iff.mp hm) hp
    | some p => exact ⟨p, rfl⟩
  refine ⟨⟨p, hp', ?_⟩, fun m s l rows => rfl, ?_⟩
  · simp [predict, h4, hp', log_prediction, hre, hwf, hfresh]
  · intro a s
    unfold log_prediction
    by_cases h1 : s.reachable = false
    · exact ⟨[], by simp [h1]⟩
    · by_cases h2 : s.writeFails = true
      · exact ⟨[], by simp [h1, h2]⟩
      · by_cases h3 : s.rows.any (fun r => r.request_id = a.request_id) = true
        · exact ⟨[], by simp [h1, h2, h3]⟩
        · refine ⟨[{ request_id := a.request_id, model_name := a.model_name,
                     model_version := a.model_version,
                     features := encodeFeatures d a.features,
                     prediction := a.prediction, probability := a.probability,
                     latency_ms := a.latency_ms, timestamp := a.timestamp }],
                  ?_⟩
          simp [h1, h2, h3]

/-- Witness for C7 (amended): a concrete prediction against the empty
healthy store. -/
theorem C7_amended_witness :
    (([1, 2, 3, 4] : List Rat).length = 4) ∧
    constModel.probaRow [1, 2, 3, 4] ≠ [] ∧
    emptyStore.reachable = true ∧
    emptyStore.writeFails = false ∧
    emptyStore.rows.any (fun r => r.request_id = "rid-7") = false ∧
    ((∃ p, (constModel.probaRow [1, 2, 3, 4]).max? = some p ∧
      (predict (some constModel) Driver.postgres emptyStore "rid-7" 2 3
          [1, 2, 3, 4]).2.rows =
        emptyStore.rows ++
          [{ request_id := "rid-7", model_name := MODEL_NAME,
             model_version := MODEL_VERSION,
             features := encodeFeatures Driver.postgres [1, 2, 3, 4],
             prediction := constModel.predictRow [1, 2, 3, 4],
             probability := p, latency_ms := 2, timestamp := 3 }]) ∧
     (∀ m s l rows, (predict_batch_full m s l rows).2 = s) ∧
     (∀ a s, ∃ tail,
        (log_prediction Driver.postgres a s).2.rows = s.rows ++ tail)) :=
  ⟨by decide, by decide, rfl, rfl, rfl,
   C7_single_logs_batch_does_not constModel Driver.postgres emptyStore
     "rid-7" 2 3 [1, 2, 3, 4] (by decide) (by decide) rfl rfl rfl⟩

/-- Decoding inverts the SQLite JSON encoding of a feature list. -/
theorem loads_dumps (fs : List Rat) :
    loadsFloats (dumpsFloats fs) = some fs := by
  induction fs with
  | nil => rfl
  | cons x xs ih =>
      simp only [dumpsFloats, loadsFloats, List.map_cons, jnums] at ih ⊢
      rw [ih]
      rfl

/-- C9: in both backends, appending a record through `log_prediction` to
a fresh healthy store and reading it back through `get_predictions`
yields the same plain feature sequence — the JSON text encoding of the
SQLite backend and the native array of the Postgres backend are decoded
transparently. -/
theorem C9_feature_roundtrip (d : Driver) (a : LogArgs)
    (h4 : a.features.length = 4) :
    (log_prediction d a emptyStore).1 = true ∧
    ∃ r, get_predictions d (log_prediction d a emptyStore).2 100 =
        Except.ok [r] ∧
      r.features = a.features ∧ r.request_id = a.request_id := by
  refine ⟨by simp [log_prediction, emptyStore], ?_⟩
  cases d with
  | sqlite =>
      refine ⟨{ request_id := a.request_id, model_name := a.model_name,
                model_version := a.model_version, features := a.features,
                prediction := a.prediction, probability := a.probability,
                latency_ms := a.latency_ms, timestamp := a.timestamp },
              ?_, rfl, rfl⟩
      simp [log_prediction, emptyStore, get_predictions, sortDesc,
            insertDesc, decodeRow, encodeFeatures, loads_dumps, decodeRows]
  | postgres =>
      refine ⟨{ request_id := a.request_id, model_name := a.model_name,
                model_version := a.model_version, features := a.features,
                prediction := a.prediction, probability := a.probability,
                latency_ms := a.latency_ms, timestamp := a.timestamp },
              ?_, rfl, rfl⟩
      simp [log_prediction, emptyStore, get_predictions, sortDesc,
            insertDesc, decodeRow, encodeFeatures, decodeRows]

/-- Witness for C9: a concrete 4-feature record (SQLite backend; the
theorem itself covers both). -/
theorem C9_witness :
    (({ request_id := "rid-9", model_name := "m", model_version := "v",
        features := [51 / 10, 35 / 10, 14 / 10, 2 / 10], prediction := 0,
        probability := 1, latency_ms := 2,
        timestamp := 3 : LogArgs}).features.length = 4) ∧
    ((log_prediction Driver.sqlite
        { request_id := "rid-9", model_name := "m", model_version := "v",
          features := [51 / 10, 35 / 10, 14 / 10, 2 / 10], prediction := 0,
          probability := 1, latency_ms := 2, timestamp := 3 }
        emptyStore).1 = true ∧
     ∃ r, get_predictions Driver.sqlite
          (log_prediction Driver.sqlite
            { request_id := "rid-9", model_name := "m", model_version := "v",
              features := [51 / 10, 35 / 10, 14 / 10, 2 / 10],
              prediction := 0, probability := 1, latency_ms := 2,
              timestamp := 3 } emptyStore).2 100 = Except.ok [r] ∧
       r.features = [51 / 10, 35 / 10, 14 / 10, 2 / 10] ∧
       r.request_id = "rid-9") :=
  ⟨by decide,
   C9_feature_roundtrip Driver.sqlite
     { request_id := "rid-9", model_name := "m", model_version := "v",
       features := [51 / 10, 35 / 10, 14 / 10, 2 / 10], prediction := 0,
       probability := 1, latency_ms := 2, timestamp := 3 } (by decide)⟩

/-- Inserting into the descending-ordered list is a permutation. -/
theorem insertDesc_perm (r : Row) (l : List Row) :
    (insertDesc r l).Perm (r :: l) := by
  induction l with
  | nil => exact List.Perm.refl _
  | cons x xs ih =>
      unfold insertDesc
      by_cases h : x.timestamp ≤ r.timestamp
      · simp [h]
      · simp only [if_neg h]
        exact (ih.cons x).trans (List.Perm.swap r x xs)

/-- Inserting into a timestamp-descending list keeps it descending. -/
theorem insertDesc_sorted (r : Row) (l : List Row)
    (h : l.Pairwise fun a b => b.timestamp ≤ a.timestamp) :
    (insertDesc r l).Pairwise fun a b => b.timestamp ≤ a.timestamp := by
  induction l with
  | nil => simp [insertDesc]
  | cons x xs ih =>
      rcases List.pairwise_cons.mp h with ⟨hx, hxs⟩
      unfold insertDesc
      by_cases hc : x.timestamp ≤ r.timestamp
      · simp only [if_pos hc]
        refine List.pairwise_cons.mpr ⟨?_, h⟩
        intro b hb
        rcases List.mem_cons.mp hb with rfl | hb
        · exact hc
        · exact (hx b hb).trans hc
      · simp only [if_neg hc]
        refine List.pairwise_cons.mpr ⟨?_, ih hxs⟩
        intro b hb
        have hmem : b = r ∨ b ∈ xs :=
          List.mem_cons.mp ((insertDesc_perm r xs).mem_iff.mp hb)
        rcases hmem with hb' | hb'
        · rw [hb']; exact le_of_lt (not_le.mp hc)
        · exact hx b hb'

/-- The sorted table is a permutation of the table. -/
theorem sortDesc_perm (l : List Row) : (sortDesc l).Perm l := by
  induction l with
  | nil => exact List.Perm.refl _
  | cons x xs ih => exact (insertDesc_perm x (sortDesc xs)).trans (ih.cons x)

/-- The sorted table is timestamp-descending. -/
theorem sortDesc_sorted (l : List Row) :
    (sortDesc l).Pairwise fun a b => b.timestamp ≤ a.timestamp := by
  induction l with
  | nil => simp [sortDesc]
  | cons x xs ih => exact insertDesc_sorted x (sortDesc xs) ih

/-- A rowwise-decodable list decodes as a whole, elementwise. -/
theorem decodeRows_some (d : Driver) (l : List Row)
    (hdec : ∀ x ∈ l, (decodeRow d x).isSome) :
    ∃ ys, decodeRows d l = some ys ∧
      List.Forall₂ (fun x y => decodeRow d x = some y) l ys := by
  induction l with
  | nil => exact ⟨[], rfl, List.Forall₂.nil⟩
  | cons x xs ih =>
      obtain ⟨y, hy⟩ := Option.isSome_iff_exists.mp (hdec x (by simp))
      obtain ⟨ys, hys, hrel⟩ := ih fun z hz => hdec z (by simp [hz])
      refine ⟨y :: ys, ?_, List.Forall₂.cons hy hrel⟩
      simp [decodeRows, hy, hys]

/-- Decoding a row keeps its timestamp. -/
theorem decodeRow_timestamp (d : Driver) (r : Row) (x : Rec)
    (h : decodeRow d r = some x) : x.timestamp = r.timestamp := by
  obtain ⟨rid, mn, mv, feat, pred, prob, lat, ts⟩ := r
  cases d with
  | sqlite =>
      cases feat with
      | text j =>
          simp only [decodeRow, Option.map_eq_some'] at h
          obtain ⟨fs, _, hx⟩ := h
          rw [← hx]
      | arr fs => simp [decodeRow] at h
  | postgres =>
      cases feat with
      | text j => simp [decodeRow] at h
      | arr fs =>
          simp only [decodeRow, Option.some.injEq] at h
          rw [← h]

/-- Right-to-left membership along an elementwise relation. -/
theorem forall₂_mem_right {R : Row → Rec → Prop} {l : List Row}
    {ys : List Rec} (h : List.Forall₂ R l ys) :
    ∀ y ∈ ys, ∃ x, x ∈ l ∧ R x y := by
  induction h with
  | nil => intro y hy; simp at hy
  | cons hxy hrest ih =>
      intro y hy
      rcases List.mem_cons.mp hy with rfl | hy
      · exact ⟨_, by simp, hxy⟩
      · obtain ⟨x, hx, hr⟩ := ih y hy
        exact ⟨x, by simp [hx], hr⟩

/-- Timestamp-descending order survives rowwise decoding. -/
theorem forall₂_pairwise (d : Driver) (l : List Row) (ys : List Rec)
    (hrel : List.Forall₂ (fun x y => decodeRow d x = some y) l ys)
    (hs : l.Pairwise fun a b => b.timestamp ≤ a.timestamp) :
    ys.Pairwise fun a b => b.timestamp ≤ a.timestamp := by
  induction hrel with
  | nil => exact List.Pairwise.nil
  | cons hxy hrest ih =>
      rcases List.pairwise_cons.mp hs with ⟨ha, hl⟩
      refine List.pairwise_cons.mpr ⟨?_, ih hl⟩
      intro y hy
      obtain ⟨x, hx, hr⟩ := forall₂_mem_right hrest y hy
      rw [decodeRow_timestamp d _ _ hr, decodeRow_timestamp d _ _ hxy]
      exact ha x hx

/-- C8: for every limit, `get_predictions` returns (without raising) at
most `limit` records ordered by timestamp descending, and returns the
empty list rather than an error when the store is unreachable. -/
theorem C8_recent_limit_sorted (d : Driver) (st : Store) (limit : Nat)
    (hdec : ∀ r ∈ st.rows, (decodeRow d r).isSome) :
    ∃ l, get_predictions d st limit = Except.ok l ∧
      l.length ≤ limit ∧
      l.Pairwise (fun a b => b.timestamp ≤ a.timestamp) ∧
      (st.reachable = false → l = []) := by
  by_cases hre : st.reachable = false
  · exact ⟨[], by simp [get_predictions, hre], by simp, List.Pairwise.nil,
      fun _ => rfl⟩
  · have hdec' : ∀ r ∈ (sortDesc st.rows).take limit,
        (decodeRow d r).isSome := by
      intro r hr
      exact hdec r ((sortDesc_perm st.rows).mem_iff.mp
        (List.mem_of_mem_take hr))
    obtain ⟨ys, hys, hrel⟩ := decodeRows_some d _ hdec'
    have hsorted : ((sortDesc st.rows).take limit).Pairwise
        (fun a b => b.timestamp ≤ a.timestamp) :=
      (sortDesc_sorted st.rows).sublist (List.take_sublist limit _)
    refine ⟨ys, ?_, ?_, forall₂_pairwise d _ _ hrel hsorted,
      fun h => absurd h hre⟩
    · simp [get_predictions, hre, hys]
    · calc ys.length = ((sortDesc st.rows).take limit).length :=
            hrel.length_eq.symm
        _ ≤ limit := List.length_take_le _ _

/-- Witness for C8: a two-row Postgres store read with limit 1. -/
theorem C8_witness :
    (∀ r ∈ demoStore.rows, (decodeRow Driver.postgres r).isSome) ∧
    (∃ l, get_predictions Driver.postgres demoStore 1 = Except.ok l ∧
      l.length ≤ 1 ∧
      l.Pairwise (fun a b => b.timestamp ≤ a.timestamp) ∧
      (demoStore.reachable = false → l = [])) :=
  ⟨by decide, C8_recent_limit_sorted Driver.postgres demoStore 1 (by decide)⟩

end Iris
